import Mathlib

/-!
Shallow embedding of `src/route-controller.ts` (class `RouteController`).

The TypeScript class keeps an array `pendingRequests` of records, each holding
a single-shot promise resolver, the `Route` handle and a timestamp, plus a map
`timeoutIds` from records to scheduled timers.  `handle(route)` filters the
request, enforces the `expectedRequests` limit, enqueues a record, optionally
schedules an auto-continue timer, suspends on the record's promise, and — once
the promise resolves — cancels the timer, splices the record out of the array
and applies the chosen terminal action to the route.

In this embedding:
- a record's resolver state is a `decision : Option RouteAction` field
  (`none` = promise unresolved; resolving an already-resolved promise is a
  no-op, exactly as in JS);
- route objects are identified by a `Nat` id drawn from a counter `nextId`;
  the terminal actions applied to routes are collected in `routeLog`;
- the suspended tail of `handle` (timer cleanup, splice, apply action) is the
  explicit step `resumeHandle`, since in JS it runs as a later microtask;
- `detached` holds records that `dispose()` removed from the array while their
  promise was already resolved but their suspended continuation had not yet
  run (in JS that continuation still runs and applies the action; the splice
  then finds nothing);
- `timeoutIds` is the list of record ids with an active scheduled timer; the
  timer callback is the explicit step `fireTimeout`.

JS field `match` and method `continue` are Lean keywords, so they are named
`matchFn` and `cont` here.
-/

/-- A network request as seen through `route.request()`: only `method()` and
`url()` are consulted by the controller. -/
structure Request where
  method : String
  url : String
deriving DecidableEq, Repr

/-- The `RouteAction` tagged tuple of the source: the terminal action together
with the arguments later passed to the route.  `abort` carries the optional
error code, `cont`/`fallback` the optional overrides, `fulfill` the response. -/
inductive RouteAction where
  | abort (errorCode : Option String)
  | cont (overrides : Option String)
  | fulfill (response : String)
  | fallback (overrides : Option String)
deriving DecidableEq, Repr

/-- One entry of the `pendingRequests` array.  `rid` is the identity of the
record (and of its route handle); `decision` is the single-shot resolver state. -/
structure PendingRequest where
  rid : Nat
  req : Request
  timestamp : Nat
  decision : Option RouteAction
deriving DecidableEq, Repr

/-- `RequestSelector`: an index into the pending array (0 = oldest) or a
predicate over the request. -/
inductive RequestSelector where
  | idx (n : Nat)
  | pred (p : Request → Bool)

/-- `RouteControllerOptions`. -/
structure RouteControllerOptions where
  timeout : Option Nat := none
  method : Option String := none
  matchFn : Option (Request → Bool) := none
  expectedRequests : Option Nat := none

/-- The mutable state of one `RouteController` instance, together with the
ghost components (`detached`, `routeLog`, `nextId`) that record the effects on
route handles and the still-suspended continuations. -/
structure ControllerState where
  pendingRequests : List PendingRequest
  timeoutIds : List Nat
  detached : List PendingRequest
  routeLog : List (Nat × RouteAction)
  nextId : Nat
deriving DecidableEq, Repr

/-- The state of a freshly constructed controller. -/
def initState : ControllerState :=
  { pendingRequests := [], timeoutIds := [], detached := [], routeLog := [], nextId := 0 }

/-- Effect of calling record `rid`'s single-shot resolver on one array entry:
the first call fixes the decision, later calls are no-ops (a JS promise
resolves at most once). -/
def resolveOne (rid : Nat) (a : RouteAction) (r : PendingRequest) : PendingRequest :=
  if r.rid = rid ∧ r.decision = none then { r with decision := some a } else r

/-- Resolving a record's promise with action `a`. -/
def resolveRecord (s : ControllerState) (rid : Nat) (a : RouteAction) : ControllerState :=
  { s with pendingRequests := s.pendingRequests.map (resolveOne rid a) }

/-- Effect on one array entry of the bulk loops, which call every snapshot
record's resolver with the same action. -/
def resolveEvery (a : RouteAction) (r : PendingRequest) : PendingRequest :=
  if r.decision = none then { r with decision := some a } else r

/-- Resolving every record of the current array snapshot with the same action
(the loop bodies of `abortAll` / `continueAll`). -/
def resolveAll (s : ControllerState) (a : RouteAction) : ControllerState :=
  { s with pendingRequests := s.pendingRequests.map (resolveEvery a) }

/-- The method filter of `handle`: configured and the request's method differs
(exact, case-sensitive string comparison). -/
def methodFilterFails (cfg : RouteControllerOptions) (req : Request) : Bool :=
  match cfg.method with
  | some m => req.method != m
  | none => false

/-- The custom match filter of `handle`: configured and returning `false`. -/
def matchFilterFails (cfg : RouteControllerOptions) (req : Request) : Bool :=
  match cfg.matchFn with
  | some f => !(f req)
  | none => false

/-- JS truthiness test `if (this.config?.timeout)`: present and non-zero. -/
def timeoutTruthy (cfg : RouteControllerOptions) : Bool :=
  match cfg.timeout with
  | some t => t != 0
  | none => false

/-- Outcome of one `handle` call: auto-continued by a filter, rejected by the
`expectedRequests` limit (the thrown error names the configured limit and the
current pending count), or enqueued as the record with the given id. -/
inductive HandleOutcome where
  | filtered
  | capacityError (expected : Nat) (pending : Nat)
  | enqueued (rid : Nat)
deriving DecidableEq, Repr

/-- State change of the filter branches: `route.continue()` with no overrides
is applied to the (fresh) route handle; nothing is enqueued. -/
def autoContState (s : ControllerState) : ControllerState :=
  { s with routeLog := s.routeLog ++ [(s.nextId, RouteAction.cont none)],
           nextId := s.nextId + 1 }

/-- State change of the enqueue branch: push a fresh unresolved record and, if
a (truthy) timeout is configured, schedule its auto-continue timer. -/
def enqueueState (cfg : RouteControllerOptions) (s : ControllerState) (req : Request)
    (now : Nat) : ControllerState :=
  { s with
    pendingRequests :=
      s.pendingRequests ++ [{ rid := s.nextId, req := req, timestamp := now, decision := none }],
    timeoutIds := if timeoutTruthy cfg then s.timeoutIds ++ [s.nextId] else s.timeoutIds,
    nextId := s.nextId + 1 }

/-- The synchronous prefix of `handle(route)`: method filter, match filter,
`expectedRequests` check, enqueue and timer scheduling. -/
def RouteController.handle (cfg : RouteControllerOptions) (s : ControllerState)
    (req : Request) (now : Nat) : HandleOutcome × ControllerState :=
  if methodFilterFails cfg req then
    (HandleOutcome.filtered, autoContState s)
  else if matchFilterFails cfg req then
    (HandleOutcome.filtered, autoContState s)
  else
    match cfg.expectedRequests with
    | some k =>
      if k ≤ s.pendingRequests.length then
        (HandleOutcome.capacityError k s.pendingRequests.length, { s with nextId := s.nextId + 1 })
      else
        (HandleOutcome.enqueued s.nextId, enqueueState cfg s req now)
    | none => (HandleOutcome.enqueued s.nextId, enqueueState cfg s req now)

/-- `findRequest(selector)`: positional lookup for an index selector,
oldest-to-newest first-match scan for a predicate selector; the omitted
selector defaults to index 0. -/
def RouteController.findRequest (s : ControllerState)
    (selector : Option RequestSelector) : Option PendingRequest :=
  match selector.getD (RequestSelector.idx 0) with
  | RequestSelector.idx n => s.pendingRequests.get? n
  | RequestSelector.pred p => s.pendingRequests.find? fun r => p r.req

/-- `abort(errorCode?, selector?)`. -/
def RouteController.abort (s : ControllerState) (errorCode : Option String)
    (selector : Option RequestSelector) : Bool × ControllerState :=
  match RouteController.findRequest s selector with
  | some r => (true, resolveRecord s r.rid (RouteAction.abort errorCode))
  | none => (false, s)

/-- `continue(overrides?, selector?)` (named `cont`: `continue` is a Lean keyword). -/
def RouteController.cont (s : ControllerState) (overrides : Option String)
    (selector : Option RequestSelector) : Bool × ControllerState :=
  match RouteController.findRequest s selector with
  | some r => (true, resolveRecord s r.rid (RouteAction.cont overrides))
  | none => (false, s)

/-- `fulfill(response, selector?)`. -/
def RouteController.fulfill (s : ControllerState) (response : String)
    (selector : Option RequestSelector) : Bool × ControllerState :=
  match RouteController.findRequest s selector with
  | some r => (true, resolveRecord s r.rid (RouteAction.fulfill response))
  | none => (false, s)

/-- `fallback(overrides?, selector?)`. -/
def RouteController.fallback (s : ControllerState) (overrides : Option String)
    (selector : Option RequestSelector) : Bool × ControllerState :=
  match RouteController.findRequest s selector with
  | some r => (true, resolveRecord s r.rid (RouteAction.fallback overrides))
  | none => (false, s)

/-- `abortAll()`: snapshot the array, resolve every record with `abort` (no
error code), return the snapshot length. -/
def RouteController.abortAll (s : ControllerState) : Nat × ControllerState :=
  (s.pendingRequests.length, resolveAll s (RouteAction.abort none))

/-- `continueAll()`: snapshot the array, resolve every record with `continue`
(no overrides), return the snapshot length. -/
def RouteController.continueAll (s : ControllerState) : Nat × ControllerState :=
  (s.pendingRequests.length, resolveAll s (RouteAction.cont none))

/-- `pendingCount` getter. -/
def RouteController.pendingCount (s : ControllerState) : Nat :=
  s.pendingRequests.length

/-- `hasPending` getter. -/
def RouteController.hasPending (s : ControllerState) : Bool :=
  decide (s.pendingRequests.length > 0)

/-- `dispose()`: cancel every scheduled timer and reset the array.  Records
whose promise was already resolved still have a suspended continuation that
will run later, so they move to the ghost `detached` list; unresolved records
are abandoned (nothing can ever resolve them). -/
def RouteController.dispose (s : ControllerState) : ControllerState :=
  { s with timeoutIds := [],
           detached := s.detached ++ s.pendingRequests.filter (fun r => r.decision.isSome),
           pendingRequests := [] }

/-- The body of the `setTimeout` callback scheduled by `handle`: remove the
timer from the map and resolve the record with `continue` and no overrides.
A timer that is not (any longer) scheduled never fires. -/
def fireTimeout (s : ControllerState) (rid : Nat) : ControllerState :=
  if rid ∈ s.timeoutIds then
    resolveRecord { s with timeoutIds := s.timeoutIds.erase rid } rid (RouteAction.cont none)
  else s

/-- The effects of the suspended tail of `handle` once the record's promise has
resolved with action `a`: clear the record's timer, splice the record out of
the array (first occurrence; a no-op if `dispose` already removed it), drop the
finished continuation, and apply the action to the route handle. -/
def applyDecision (s : ControllerState) (rid : Nat) (a : RouteAction) : ControllerState :=
  { s with timeoutIds := s.timeoutIds.erase rid,
           pendingRequests := s.pendingRequests.eraseP (fun r => r.rid == rid),
           detached := s.detached.eraseP (fun r => r.rid == rid),
           routeLog := s.routeLog ++ [(rid, a)] }

/-- Run the suspended tail of `handle` for record `rid`, if its promise has
resolved (the continuation of `await actionPromise` in the source). -/
def resumeHandle (s : ControllerState) (rid : Nat) : ControllerState :=
  match s.pendingRequests.find? (fun r => r.rid == rid) with
  | some r =>
    match r.decision with
    | some a => applyDecision s rid a
    | none => s
  | none =>
    match s.detached.find? (fun r => r.rid == rid) with
    | some r =>
      match r.decision with
      | some a => applyDecision s rid a
      | none => s
    | none => s

/-- Events of the single-threaded cooperative schedule: an incoming request,
the synchronous control operations, a timer callback firing, a suspended
`handle` continuation running, and `dispose`. -/
inductive Event where
  | intercept (req : Request) (now : Nat)
  | ctrlAbort (errorCode : Option String) (selector : Option RequestSelector)
  | ctrlContinue (overrides : Option String) (selector : Option RequestSelector)
  | ctrlFulfill (response : String) (selector : Option RequestSelector)
  | ctrlFallback (overrides : Option String) (selector : Option RequestSelector)
  | ctrlAbortAll
  | ctrlContinueAll
  | timerFires (rid : Nat)
  | resume (rid : Nat)
  | disposeCall

/-- One scheduler step. -/
def step (cfg : RouteControllerOptions) (s : ControllerState) (e : Event) : ControllerState :=
  match e with
  | Event.intercept req now => (RouteController.handle cfg s req now).2
  | Event.ctrlAbort ec sel => (RouteController.abort s ec sel).2
  | Event.ctrlContinue ov sel => (RouteController.cont s ov sel).2
  | Event.ctrlFulfill resp sel => (RouteController.fulfill s resp sel).2
  | Event.ctrlFallback ov sel => (RouteController.fallback s ov sel).2
  | Event.ctrlAbortAll => (RouteController.abortAll s).2
  | Event.ctrlContinueAll => (RouteController.continueAll s).2
  | Event.timerFires rid => fireTimeout s rid
  | Event.resume rid => resumeHandle s rid
  | Event.disposeCall => RouteController.dispose s

/-- Run a schedule from an arbitrary state. -/
def runFrom (cfg : RouteControllerOptions) (s : ControllerState) (tr : List Event) :
    ControllerState :=
  tr.foldl (step cfg) s

/-- Run a schedule from the freshly constructed controller. -/
def run (cfg : RouteControllerOptions) (tr : List Event) : ControllerState :=
  runFrom cfg initState tr

/-- Ids of the records currently in the pending array. -/
def qids (s : ControllerState) : List Nat :=
  s.pendingRequests.map PendingRequest.rid

/-- Ids of the detached (resolved, not yet resumed) records. -/
def dids (s : ControllerState) : List Nat :=
  s.detached.map PendingRequest.rid

/-- Ids of the route handles that have received a terminal action. -/
def lids (s : ControllerState) : List Nat :=
  s.routeLog.map Prod.fst

/-- Resolver state of the (first) record with id `rid` in the pending array. -/
def getRecord (s : ControllerState) (rid : Nat) : Option PendingRequest :=
  s.pendingRequests.find? (fun r => r.rid == rid)

/-- Decision of the (first) record with id `rid`, if any. -/
def getDecision (s : ControllerState) (rid : Nat) : Option RouteAction :=
  (getRecord s rid).bind PendingRequest.decision

/-- Resume every record of the current array snapshot (the microtask drain
after a bulk operation resolved them all). -/
def flushAll (s : ControllerState) : ControllerState :=
  (qids s).foldl resumeHandle s

/-- A sample GET request. -/
def reqG : Request := { method := "GET", url := "u1" }

/-- A sample POST request. -/
def reqP : Request := { method := "POST", url := "u2" }

/-- The empty configuration (all options omitted). -/
def cfg0 : RouteControllerOptions := {}

/-- Configuration with a 100ms timeout. -/
def cfgT : RouteControllerOptions := { timeout := some 100 }

/-- A state with two pending unresolved records (ids 0 and 1). -/
def sTwo : ControllerState :=
  run cfg0 [Event.intercept reqG 0, Event.intercept reqP 1]

/-- A state with one pending record (id 0) carrying an active timer. -/
def sTimer : ControllerState :=
  run cfgT [Event.intercept reqG 0]

/-- `sTwo` after `abort()` chose a decision for the oldest record (id 0); the
record is still in the array because its continuation has not run yet. -/
def sTwoAborted : ControllerState :=
  (RouteController.abort sTwo none none).2

/-- `sTimer` after `abort()` resolved its record manually; the scheduled timer
is still in the map until the continuation runs. -/
def sTimerDecided : ControllerState :=
  (RouteController.abort sTimer none none).2

/-- The record enqueued first in `sTwo`. -/
def rec0 : PendingRequest :=
  { rid := 0, req := reqG, timestamp := 0, decision := none }

/-- `rec0` after its resolver was invoked with `abort` and no error code. -/
def rec0Aborted : PendingRequest :=
  { rid := 0, req := reqG, timestamp := 0, decision := some (RouteAction.abort none) }

/-- The record enqueued second in `sTwo`. -/
def rec1 : PendingRequest :=
  { rid := 1, req := reqP, timestamp := 1, decision := none }

/-- The reachable-state invariant: the pending array is in strict arrival
order (ids are handed out by the counter, so FIFO order is strictly increasing
ids), ids are pairwise distinct across the array, the detached records and the
route log, and every id ever handed out is below the counter. -/
structure CtrlInv (s : ControllerState) : Prop where
  sortedQ : (qids s).Sorted (· < ·)
  nodupD : (dids s).Nodup
  nodupL : (lids s).Nodup
  disjQD : ∀ i ∈ qids s, i ∉ dids s
  disjQL : ∀ i ∈ qids s, i ∉ lids s
  disjDL : ∀ i ∈ dids s, i ∉ lids s
  boundQ : ∀ i ∈ qids s, i < s.nextId
  boundD : ∀ i ∈ dids s, i < s.nextId
  boundL : ∀ i ∈ lids s, i < s.nextId
  boundT : ∀ i ∈ s.timeoutIds, i < s.nextId

lemma resolveOne_rid (rid : Nat) (a : RouteAction) (r : PendingRequest) :
    (resolveOne rid a r).rid = r.rid := by
  unfold resolveOne; split <;> rfl

lemma resolveOne_req (rid : Nat) (a : RouteAction) (r : PendingRequest) :
    (resolveOne rid a r).req = r.req := by
  unfold resolveOne; split <;> rfl

lemma resolveEvery_rid (a : RouteAction) (r : PendingRequest) :
    (resolveEvery a r).rid = r.rid := by
  unfold resolveEvery; split <;> rfl

lemma resolveEvery_isSome (a : RouteAction) (r : PendingRequest) :
    (resolveEvery a r).decision.isSome := by
  unfold resolveEvery
  split
  · rfl
  · next h => cases hd : r.decision with
    | none => exact absurd hd h
    | some b => simp [hd]

lemma qids_resolveRecord (s : ControllerState) (rid : Nat) (a : RouteAction) :
    qids (resolveRecord s rid a) = qids s := by
  show (s.pendingRequests.map (resolveOne rid a)).map PendingRequest.rid
      = s.pendingRequests.map PendingRequest.rid
  rw [List.map_map]
  exact List.map_congr_left (fun r _ => resolveOne_rid rid a r)

lemma qids_resolveAll (s : ControllerState) (a : RouteAction) :
    qids (resolveAll s a) = qids s := by
  show (s.pendingRequests.map (resolveEvery a)).map PendingRequest.rid
      = s.pendingRequests.map PendingRequest.rid
  rw [List.map_map]
  exact List.map_congr_left (fun r _ => resolveEvery_rid a r)

lemma pendingCount_resolveRecord (s : ControllerState) (rid : Nat) (a : RouteAction) :
    RouteController.pendingCount (resolveRecord s rid a) = RouteController.pendingCount s := by
  show (s.pendingRequests.map (resolveOne rid a)).length = s.pendingRequests.length
  exact List.length_map _ _

lemma getRecord_resolveRecord (s : ControllerState) (rid : Nat) (a : RouteAction) :
    getRecord (resolveRecord s rid a) rid
      = (getRecord s rid).map (fun r => if r.decision = none then { r with decision := some a } else r) := by
  show (s.pendingRequests.map (resolveOne rid a)).find? (fun r => r.rid == rid)
      = Option.map _ (s.pendingRequests.find? (fun r => r.rid == rid))
  rw [List.find?_map]
  have hp : ((fun r : PendingRequest => r.rid == rid) ∘ resolveOne rid a)
      = (fun r : PendingRequest => r.rid == rid) := by
    funext r
    simp [Function.comp, resolveOne_rid]
  rw [hp]
  cases hf : s.pendingRequests.find? (fun r => r.rid == rid) with
  | none => rfl
  | some r =>
    have hr : r.rid = rid := by
      have := (List.find?_eq_some.mp hf).1
      exact eq_of_beq this
    simp only [Option.map_some']
    unfold resolveOne
    congr 1
    by_cases hd : r.decision = none
    · rw [if_pos ⟨hr, hd⟩, if_pos hd]
    · rw [if_neg (fun hc => hd hc.2), if_neg hd]

lemma getDecision_sticks (s : ControllerState) (rid : Nat) (a b : RouteAction)
    (h : getDecision s rid = some b) :
    getDecision (resolveRecord s rid a) rid = some b := by
  unfold getDecision at h ⊢
  rw [getRecord_resolveRecord]
  cases hf : getRecord s rid with
  | none => rw [hf] at h; exact absurd h (by simp)
  | some r =>
    rw [hf] at h
    simp only [Option.bind] at h
    simp only [Option.map_some', Option.some_bind]
    by_cases hd : r.decision = none
    · rw [hd] at h; exact absurd h (by simp)
    · rw [if_neg hd]; exact h

lemma getDecision_sets (s : ControllerState) (rid : Nat) (a : RouteAction)
    (r : PendingRequest) (hf : getRecord s rid = some r) (hd : r.decision = none) :
    getDecision (resolveRecord s rid a) rid = some a := by
  unfold getDecision
  rw [getRecord_resolveRecord, hf]
  simp [hd]

lemma findRequest_resolveRecord (s : ControllerState) (rid : Nat) (a : RouteAction)
    (sel : Option RequestSelector) :
    RouteController.findRequest (resolveRecord s rid a) sel
      = (RouteController.findRequest s sel).map (resolveOne rid a) := by
  unfold RouteController.findRequest
  cases sel.getD (RequestSelector.idx 0) with
  | idx n =>
    show (s.pendingRequests.map (resolveOne rid a)).get? n
        = (s.pendingRequests.get? n).map (resolveOne rid a)
    rw [List.get?_eq_getElem?, List.getElem?_map, List.get?_eq_getElem?]
  | pred p =>
    show (s.pendingRequests.map (resolveOne rid a)).find? (fun r => p r.req) = _
    rw [List.find?_map]
    have hp : ((fun r : PendingRequest => p r.req) ∘ resolveOne rid a)
        = (fun r : PendingRequest => p r.req) := by
      funext r
      simp [Function.comp, resolveOne_req]
    rw [hp]

lemma map_eraseP_sublist (p : PendingRequest → Bool) (l : List PendingRequest) :
    ((l.eraseP p).map PendingRequest.rid).Sublist (l.map PendingRequest.rid) :=
  List.Sublist.map _ (List.eraseP_sublist l)

lemma mem_map_eraseP {l : List PendingRequest} {rid : Nat}
    (h : (l.map PendingRequest.rid).Nodup) :
    rid ∉ (l.eraseP (fun r => r.rid == rid)).map PendingRequest.rid := by
  induction l with
  | nil => simp
  | cons r t ih =>
    by_cases hr : r.rid = rid
    · rw [List.eraseP_cons_of_pos (by simp [hr])]
      have h1 : r.rid ∉ t.map PendingRequest.rid := (List.nodup_cons.mp (by simpa using h)).1
      rw [hr] at h1
      exact h1
    · rw [List.eraseP_cons_of_neg (by simp [hr])]
      simp only [List.map_cons, List.mem_cons]
      push_neg
      refine ⟨fun hc => hr hc.symm, ih (List.nodup_cons.mp (by simpa using h)).2⟩

lemma find?_rid_of_mem {l : List PendingRequest} {r : PendingRequest}
    (hn : (l.map PendingRequest.rid).Nodup) (hm : r ∈ l) :
    l.find? (fun x => x.rid == r.rid) = some r := by
  induction l with
  | nil => cases hm
  | cons x t ih =>
    rcases List.mem_cons.mp hm with h | h
    · subst h
      exact List.find?_cons_of_pos _ (by simp)
    · by_cases hx : x.rid = r.rid
      · exfalso
        have h1 : x.rid ∉ t.map PendingRequest.rid := (List.nodup_cons.mp (by simpa using hn)).1
        exact h1 (hx ▸ List.mem_map_of_mem _ h)
      · rw [List.find?_cons_of_neg _ (by simp [hx])]
        exact ih (List.nodup_cons.mp (by simpa using hn)).2 h

lemma CtrlInv.nodupQ {s : ControllerState} (h : CtrlInv s) : (qids s).Nodup :=
  h.sortedQ.nodup

lemma inv_congr {s t : ControllerState} (hq : qids t = qids s) (hd : dids t = dids s)
    (hl : lids t = lids s) (ht : t.timeoutIds = s.timeoutIds) (hn : t.nextId = s.nextId)
    (h : CtrlInv s) : CtrlInv t :=
  ⟨by rw [hq]; exact h.sortedQ,
   by rw [hd]; exact h.nodupD,
   by rw [hl]; exact h.nodupL,
   by rw [hq, hd]; exact h.disjQD,
   by rw [hq, hl]; exact h.disjQL,
   by rw [hd, hl]; exact h.disjDL,
   by rw [hq, hn]; exact h.boundQ,
   by rw [hd, hn]; exact h.boundD,
   by rw [hl, hn]; exact h.boundL,
   by rw [ht, hn]; exact h.boundT⟩

lemma inv_init : CtrlInv initState := by
  constructor <;> simp [initState, qids, dids, lids, List.Sorted]

lemma inv_resolveRecord {s : ControllerState} {rid : Nat} {a : RouteAction} (h : CtrlInv s) :
    CtrlInv (resolveRecord s rid a) :=
  inv_congr (qids_resolveRecord s rid a) rfl rfl rfl rfl h

lemma inv_resolveAll {s : ControllerState} {a : RouteAction} (h : CtrlInv s) :
    CtrlInv (resolveAll s a) :=
  inv_congr (qids_resolveAll s a) rfl rfl rfl rfl h

lemma inv_autoContState {s : ControllerState} (h : CtrlInv s) : CtrlInv (autoContState s) := by
  have hl : lids (autoContState s) = lids s ++ [s.nextId] := by
    show (s.routeLog ++ [(s.nextId, RouteAction.cont none)]).map Prod.fst
        = s.routeLog.map Prod.fst ++ [s.nextId]
    simp
  refine ⟨h.sortedQ, h.nodupD, ?_, h.disjQD, ?_, ?_, ?_, ?_, ?_, ?_⟩
  · rw [hl]
    refine List.nodup_append.mpr ⟨h.nodupL, List.nodup_singleton _, ?_⟩
    rw [List.disjoint_singleton]
    intro hc
    exact Nat.lt_irrefl _ (h.boundL _ hc)
  · intro i hi
    rw [hl, List.mem_append, List.mem_singleton]
    push_neg
    exact ⟨h.disjQL i hi, Nat.ne_of_lt (h.boundQ i hi)⟩
  · intro i hi
    rw [hl, List.mem_append, List.mem_singleton]
    push_neg
    exact ⟨h.disjDL i hi, Nat.ne_of_lt (h.boundD i hi)⟩
  · exact fun i hi => Nat.lt_succ_of_lt (h.boundQ i hi)
  · exact fun i hi => Nat.lt_succ_of_lt (h.boundD i hi)
  · intro i hi
    rw [hl, List.mem_append, List.mem_singleton] at hi
    rcases hi with hi | hi
    · exact Nat.lt_succ_of_lt (h.boundL i hi)
    · rw [hi]; exact Nat.lt_succ_self _
  · exact fun i hi => Nat.lt_succ_of_lt (h.boundT i hi)

lemma inv_bumpNextId {s : ControllerState} (h : CtrlInv s) :
    CtrlInv { s with nextId := s.nextId + 1 } :=
  ⟨h.sortedQ, h.nodupD, h.nodupL, h.disjQD, h.disjQL, h.disjDL,
   fun i hi => Nat.lt_succ_of_lt (h.boundQ i hi),
   fun i hi => Nat.lt_succ_of_lt (h.boundD i hi),
   fun i hi => Nat.lt_succ_of_lt (h.boundL i hi),
   fun i hi => Nat.lt_succ_of_lt (h.boundT i hi)⟩

lemma inv_enqueueState {cfg : RouteControllerOptions} {s : ControllerState} {req : Request}
    {now : Nat} (h : CtrlInv s) : CtrlInv (enqueueState cfg s req now) := by
  have hq : qids (enqueueState cfg s req now) = qids s ++ [s.nextId] := by
    show (s.pendingRequests ++ [_]).map PendingRequest.rid
        = s.pendingRequests.map PendingRequest.rid ++ [s.nextId]
    simp
  refine ⟨?_, h.nodupD, h.nodupL, ?_, ?_, h.disjDL, ?_, ?_, ?_, ?_⟩
  · rw [hq]
    refine List.pairwise_append.mpr ⟨h.sortedQ, List.pairwise_singleton _ _, ?_⟩
    intro a ha b hb
    rw [List.mem_singleton] at hb
    rw [hb]
    exact h.boundQ a ha
  · intro i hi
    rw [hq, List.mem_append, List.mem_singleton] at hi
    rcases hi with hi | hi
    · exact h.disjQD i hi
    · rw [hi]
      intro hc
      exact Nat.lt_irrefl _ (h.boundD _ hc)
  · intro i hi
    rw [hq, List.mem_append, List.mem_singleton] at hi
    rcases hi with hi | hi
    · exact h.disjQL i hi
    · rw [hi]
      intro hc
      exact Nat.lt_irrefl _ (h.boundL _ hc)
  · intro i hi
    rw [hq, List.mem_append, List.mem_singleton] at hi
    rcases hi with hi | hi
    · exact Nat.lt_succ_of_lt (h.boundQ i hi)
    · rw [hi]; exact Nat.lt_succ_self _
  · exact fun i hi => Nat.lt_succ_of_lt (h.boundD i hi)
  · exact fun i hi => Nat.lt_succ_of_lt (h.boundL i hi)
  · intro i hi
    show i < s.nextId + 1
    by_cases hT : timeoutTruthy cfg
    · have hi2 : i ∈ s.timeoutIds ++ [s.nextId] := by
        have : (enqueueState cfg s req now).timeoutIds = s.timeoutIds ++ [s.nextId] := by
          show (if timeoutTruthy cfg then _ else _) = _
          rw [if_pos hT]
        rw [← this]
        exact hi
      rw [List.mem_append, List.mem_singleton] at hi2
      rcases hi2 with hi2 | hi2
      · exact Nat.lt_succ_of_lt (h.boundT i hi2)
      · rw [hi2]; exact Nat.lt_succ_self _
    · have hi2 : i ∈ s.timeoutIds := by
        have : (enqueueState cfg s req now).timeoutIds = s.timeoutIds := by
          show (if timeoutTruthy cfg then _ else _) = _
          rw [if_neg hT]
        rw [← this]
        exact hi
      exact Nat.lt_succ_of_lt (h.boundT i hi2)

lemma inv_handle {cfg : RouteControllerOptions} {s : ControllerState} {req : Request}
    {now : Nat} (h : CtrlInv s) : CtrlInv (RouteController.handle cfg s req now).2 := by
  unfold RouteController.handle
  split
  · exact inv_autoContState h
  · split
    · exact inv_autoContState h
    · split
      · split
        · exact inv_bumpNextId h
        · exact inv_enqueueState h
      · exact inv_enqueueState h

lemma inv_abort {s : ControllerState} {ec : Option String} {sel : Option RequestSelector}
    (h : CtrlInv s) : CtrlInv (RouteController.abort s ec sel).2 := by
  unfold RouteController.abort
  split
  · exact inv_resolveRecord h
  · exact h

lemma inv_cont {s : ControllerState} {ov : Option String} {sel : Option RequestSelector}
    (h : CtrlInv s) : CtrlInv (RouteController.cont s ov sel).2 := by
  unfold RouteController.cont
  split
  · exact inv_resolveRecord h
  · exact h

lemma inv_fulfill {s : ControllerState} {resp : String} {sel : Option RequestSelector}
    (h : CtrlInv s) : CtrlInv (RouteController.fulfill s resp sel).2 := by
  unfold RouteController.fulfill
  split
  · exact inv_resolveRecord h
  · exact h

lemma inv_fallback {s : ControllerState} {ov : Option String} {sel : Option RequestSelector}
    (h : CtrlInv s) : CtrlInv (RouteController.fallback s ov sel).2 := by
  unfold RouteController.fallback
  split
  · exact inv_resolveRecord h
  · exact h

lemma inv_fireTimeout {s : ControllerState} {rid : Nat} (h : CtrlInv s) :
    CtrlInv (fireTimeout s rid) := by
  unfold fireTimeout
  split
  · apply inv_resolveRecord
    exact ⟨h.sortedQ, h.nodupD, h.nodupL, h.disjQD, h.disjQL, h.disjDL,
           h.boundQ, h.boundD, h.boundL,
           fun i hi => h.boundT i (List.mem_of_mem_erase hi)⟩
  · exact h

lemma inv_applyDecision {s : ControllerState} {rid : Nat} {a : RouteAction} (h : CtrlInv s)
    (hnl : rid ∉ lids s) (hb : rid < s.nextId)
    (hnq : rid ∉ (s.pendingRequests.eraseP (fun r => r.rid == rid)).map PendingRequest.rid)
    (hnd : rid ∉ (s.detached.eraseP (fun r => r.rid == rid)).map PendingRequest.rid) :
    CtrlInv (applyDecision s rid a) := by
  have hl : lids (applyDecision s rid a) = lids s ++ [rid] := by
    show (s.routeLog ++ [(rid, a)]).map Prod.fst = s.routeLog.map Prod.fst ++ [rid]
    simp
  have subq := map_eraseP_sublist (fun r => r.rid == rid) s.pendingRequests
  have subd := map_eraseP_sublist (fun r => r.rid == rid) s.detached
  refine ⟨?_, ?_, ?_, ?_, ?_, ?_, ?_, ?_, ?_, ?_⟩
  · exact List.Pairwise.sublist subq h.sortedQ
  · exact List.Nodup.sublist subd h.nodupD
  · rw [hl]
    refine List.nodup_append.mpr ⟨h.nodupL, List.nodup_singleton _, ?_⟩
    rw [List.disjoint_singleton]
    exact hnl
  · intro i hi hc
    exact h.disjQD i (subq.subset hi) (subd.subset hc)
  · intro i hi
    rw [hl, List.mem_append, List.mem_singleton]
    push_neg
    exact ⟨h.disjQL i (subq.subset hi), fun hc => hnq (hc ▸ hi)⟩
  · intro i hi
    rw [hl, List.mem_append, List.mem_singleton]
    push_neg
    exact ⟨h.disjDL i (subd.subset hi), fun hc => hnd (hc ▸ hi)⟩
  · exact fun i hi => h.boundQ i (subq.subset hi)
  · exact fun i hi => h.boundD i (subd.subset hi)
  · intro i hi
    rw [hl, List.mem_append, List.mem_singleton] at hi
    rcases hi with hi | hi
    · exact h.boundL i hi
    · rw [hi]; exact hb
  · exact fun i hi => h.boundT i (List.mem_of_mem_erase hi)

lemma inv_resumeHandle {s : ControllerState} {rid : Nat} (h : CtrlInv s) :
    CtrlInv (resumeHandle s rid) := by
  unfold resumeHandle
  cases hf : s.pendingRequests.find? (fun r => r.rid == rid) with
  | some r =>
    show CtrlInv (match r.decision with | some a => applyDecision s rid a | none => s)
    cases hdec : r.decision with
    | some a =>
      have hmem : r ∈ s.pendingRequests := List.mem_of_find?_eq_some hf
      have hrid : r.rid = rid := eq_of_beq (List.find?_eq_some.mp hf).1
      have hq : rid ∈ qids s := by
        rw [← hrid]
        exact List.mem_map_of_mem _ hmem
      refine inv_applyDecision h (h.disjQL rid hq) (h.boundQ rid hq)
        (mem_map_eraseP h.nodupQ) ?_
      intro hc
      exact h.disjQD rid hq ((map_eraseP_sublist _ _).subset hc)
    | none => exact h
  | none =>
    show CtrlInv (match s.detached.find? (fun r => r.rid == rid) with
      | some r => match r.decision with | some a => applyDecision s rid a | none => s
      | none => s)
    cases hf2 : s.detached.find? (fun r => r.rid == rid) with
    | some r =>
      show CtrlInv (match r.decision with | some a => applyDecision s rid a | none => s)
      cases hdec : r.decision with
      | some a =>
        have hmem : r ∈ s.detached := List.mem_of_find?_eq_some hf2
        have hrid : r.rid = rid := eq_of_beq (List.find?_eq_some.mp hf2).1
        have hd : rid ∈ dids s := by
          rw [← hrid]
          exact List.mem_map_of_mem _ hmem
        have hnq : rid ∉ qids s := fun hc => h.disjQD rid hc hd
        refine inv_applyDecision h (h.disjDL rid hd) (h.boundD rid hd) ?_
          (mem_map_eraseP h.nodupD)
        intro hc
        exact hnq ((map_eraseP_sublist _ _).subset hc)
      | none => exact h
    | none => exact h

lemma inv_dispose {s : ControllerState} (h : CtrlInv s) :
    CtrlInv (RouteController.dispose s) := by
  have hd : dids (RouteController.dispose s)
      = dids s ++ (s.pendingRequests.filter (fun r => r.decision.isSome)).map PendingRequest.rid := by
    show (s.detached ++ _).map PendingRequest.rid = _
    simp [dids]
  have subf : ((s.pendingRequests.filter (fun r => r.decision.isSome)).map PendingRequest.rid).Sublist
      (qids s) :=
    List.Sublist.map _ (List.filter_sublist _)
  refine ⟨?_, ?_, h.nodupL, ?_, ?_, ?_, ?_, ?_, h.boundL, ?_⟩
  · exact List.sorted_nil
  · rw [hd]
    refine List.nodup_append.mpr ⟨h.nodupD, List.Nodup.sublist subf h.nodupQ, ?_⟩
    intro i hi hc
    exact h.disjQD i (subf.subset hc) hi
  · intro i hi
    exact absurd hi (List.not_mem_nil i)
  · intro i hi
    exact absurd hi (List.not_mem_nil i)
  · intro i hi
    rw [hd, List.mem_append] at hi
    rcases hi with hi | hi
    · exact h.disjDL i hi
    · exact h.disjQL i (subf.subset hi)
  · intro i hi
    exact absurd hi (List.not_mem_nil i)
  · intro i hi
    rw [hd, List.mem_append] at hi
    rcases hi with hi | hi
    · exact h.boundD i hi
    · exact h.boundQ i (subf.subset hi)
  · intro i hi
    exact absurd hi (List.not_mem_nil i)

lemma inv_step (cfg : RouteControllerOptions) (s : ControllerState) (e : Event)
    (h : CtrlInv s) : CtrlInv (step cfg s e) := by
  cases e with
  | intercept req now => exact inv_handle h
  | ctrlAbort ec sel => exact inv_abort h
  | ctrlContinue ov sel => exact inv_cont h
  | ctrlFulfill resp sel => exact inv_fulfill h
  | ctrlFallback ov sel => exact inv_fallback h
  | ctrlAbortAll => exact inv_resolveAll h
  | ctrlContinueAll => exact inv_resolveAll h
  | timerFires rid => exact inv_fireTimeout h
  | resume rid => exact inv_resumeHandle h
  | disposeCall => exact inv_dispose h

lemma inv_runFrom (cfg : RouteControllerOptions) (tr : List Event) :
    ∀ s : ControllerState, CtrlInv s → CtrlInv (runFrom cfg s tr) := by
  induction tr with
  | nil => exact fun s h => h
  | cons e t ih => exact fun s h => ih (step cfg s e) (inv_step cfg s e h)

lemma inv_run (cfg : RouteControllerOptions) (tr : List Event) : CtrlInv (run cfg tr) :=
  inv_runFrom cfg tr initState inv_init

lemma timers_nextId_abort (s : ControllerState) (ec : Option String)
    (sel : Option RequestSelector) :
    (RouteController.abort s ec sel).2.timeoutIds = s.timeoutIds ∧
    (RouteController.abort s ec sel).2.nextId = s.nextId := by
  unfold RouteController.abort
  split <;> exact ⟨rfl, rfl⟩

lemma timers_nextId_cont (s : ControllerState) (ov : Option String)
    (sel : Option RequestSelector) :
    (RouteController.cont s ov sel).2.timeoutIds = s.timeoutIds ∧
    (RouteController.cont s ov sel).2.nextId = s.nextId := by
  unfold RouteController.cont
  split <;> exact ⟨rfl, rfl⟩

lemma timers_nextId_fulfill (s : ControllerState) (resp : String)
    (sel : Option RequestSelector) :
    (RouteController.fulfill s resp sel).2.timeoutIds = s.timeoutIds ∧
    (RouteController.fulfill s resp sel).2.nextId = s.nextId := by
  unfold RouteController.fulfill
  split <;> exact ⟨rfl, rfl⟩

lemma timers_nextId_fallback (s : ControllerState) (ov : Option String)
    (sel : Option RequestSelector) :
    (RouteController.fallback s ov sel).2.timeoutIds = s.timeoutIds ∧
    (RouteController.fallback s ov sel).2.nextId = s.nextId := by
  unfold RouteController.fallback
  split <;> exact ⟨rfl, rfl⟩

lemma timers_fireTimeout_subset (s : ControllerState) (rid2 : Nat) :
    (∀ i, i ∈ (fireTimeout s rid2).timeoutIds → i ∈ s.timeoutIds) ∧
    (fireTimeout s rid2).nextId = s.nextId := by
  unfold fireTimeout
  split
  · exact ⟨fun i hi => List.mem_of_mem_erase hi, rfl⟩
  · exact ⟨fun i hi => hi, rfl⟩

lemma timers_resumeHandle_subset (s : ControllerState) (rid2 : Nat) :
    (∀ i, i ∈ (resumeHandle s rid2).timeoutIds → i ∈ s.timeoutIds) ∧
    (resumeHandle s rid2).nextId = s.nextId := by
  unfold resumeHandle
  split
  · split
    · exact ⟨fun i hi => List.mem_of_mem_erase hi, rfl⟩
    · exact ⟨fun i hi => hi, rfl⟩
  · split
    · split
      · exact ⟨fun i hi => List.mem_of_mem_erase hi, rfl⟩
      · exact ⟨fun i hi => hi, rfl⟩
    · exact ⟨fun i hi => hi, rfl⟩

lemma fresh_handle (cfg : RouteControllerOptions) (s : ControllerState) (req : Request)
    (now : Nat) (rid : Nat) (hb : rid < s.nextId) (hn : rid ∉ s.timeoutIds) :
    rid < (RouteController.handle cfg s req now).2.nextId ∧
    rid ∉ (RouteController.handle cfg s req now).2.timeoutIds := by
  unfold RouteController.handle
  split
  · exact ⟨Nat.lt_succ_of_lt hb, hn⟩
  · split
    · exact ⟨Nat.lt_succ_of_lt hb, hn⟩
    · split
      · split
        · exact ⟨Nat.lt_succ_of_lt hb, hn⟩
        · refine ⟨Nat.lt_succ_of_lt hb, ?_⟩
          show rid ∉ (if timeoutTruthy cfg then s.timeoutIds ++ [s.nextId] else s.timeoutIds)
          split
          · rw [List.mem_append, List.mem_singleton]
            push_neg
            exact ⟨hn, Nat.ne_of_lt hb⟩
          · exact hn
      · refine ⟨Nat.lt_succ_of_lt hb, ?_⟩
        show rid ∉ (if timeoutTruthy cfg then s.timeoutIds ++ [s.nextId] else s.timeoutIds)
        split
        · rw [List.mem_append, List.mem_singleton]
          push_neg
          exact ⟨hn, Nat.ne_of_lt hb⟩
        · exact hn

lemma fresh_step (cfg : RouteControllerOptions) (s : ControllerState) (e : Event) (rid : Nat)
    (hb : rid < s.nextId) (hn : rid ∉ s.timeoutIds) :
    rid < (step cfg s e).nextId ∧ rid ∉ (step cfg s e).timeoutIds := by
  cases e with
  | intercept req now => exact fresh_handle cfg s req now rid hb hn
  | ctrlAbort ec sel =>
    have h := timers_nextId_abort s ec sel
    show rid < (RouteController.abort s ec sel).2.nextId ∧
        rid ∉ (RouteController.abort s ec sel).2.timeoutIds
    rw [h.1, h.2]
    exact ⟨hb, hn⟩
  | ctrlContinue ov sel =>
    have h := timers_nextId_cont s ov sel
    show rid < (RouteController.cont s ov sel).2.nextId ∧
        rid ∉ (RouteController.cont s ov sel).2.timeoutIds
    rw [h.1, h.2]
    exact ⟨hb, hn⟩
  | ctrlFulfill resp sel =>
    have h := timers_nextId_fulfill s resp sel
    show rid < (RouteController.fulfill s resp sel).2.nextId ∧
        rid ∉ (RouteController.fulfill s resp sel).2.timeoutIds
    rw [h.1, h.2]
    exact ⟨hb, hn⟩
  | ctrlFallback ov sel =>
    have h := timers_nextId_fallback s ov sel
    show rid < (RouteController.fallback s ov sel).2.nextId ∧
        rid ∉ (RouteController.fallback s ov sel).2.timeoutIds
    rw [h.1, h.2]
    exact ⟨hb, hn⟩
  | ctrlAbortAll => exact ⟨hb, hn⟩
  | ctrlContinueAll => exact ⟨hb, hn⟩
  | timerFires rid2 =>
    have h := timers_fireTimeout_subset s rid2
    show rid < (fireTimeout s rid2).nextId ∧ rid ∉ (fireTimeout s rid2).timeoutIds
    rw [h.2]
    exact ⟨hb, fun hc => hn (h.1 rid hc)⟩
  | resume rid2 =>
    have h := timers_resumeHandle_subset s rid2
    show rid < (resumeHandle s rid2).nextId ∧ rid ∉ (resumeHandle s rid2).timeoutIds
    rw [h.2]
    exact ⟨hb, fun hc => hn (h.1 rid hc)⟩
  | disposeCall => exact ⟨hb, fun hc => (List.not_mem_nil rid) hc⟩

lemma fresh_runFrom (cfg : RouteControllerOptions) (tr : List Event) :
    ∀ (s : ControllerState) (rid : Nat), rid < s.nextId → rid ∉ s.timeoutIds →
      rid < (runFrom cfg s tr).nextId ∧ rid ∉ (runFrom cfg s tr).timeoutIds := by
  induction tr with
  | nil => exact fun s rid hb hn => ⟨hb, hn⟩
  | cons e t ih =>
    intro s rid hb hn
    have h := fresh_step cfg s e rid hb hn
    exact ih (step cfg s e) rid h.1 h.2

lemma flush_empties : ∀ (q : List PendingRequest) (s : ControllerState),
    s.pendingRequests = q → (∀ r ∈ q, r.decision.isSome) →
    ((q.map PendingRequest.rid).foldl resumeHandle s).pendingRequests = [] := by
  intro q
  induction q with
  | nil =>
    intro s hq hd
    exact hq
  | cons r t ih =>
    intro s hq hd
    have hfind : s.pendingRequests.find? (fun x => x.rid == r.rid) = some r := by
      rw [hq]
      exact List.find?_cons_of_pos _ (by simp)
    obtain ⟨a, ha⟩ := Option.isSome_iff_exists.mp (hd r (List.mem_cons_self r t))
    have hres : resumeHandle s r.rid = applyDecision s r.rid a := by
      simp only [resumeHandle, hfind, ha]
    have hqt : (resumeHandle s r.rid).pendingRequests = t := by
      rw [hres]
      show s.pendingRequests.eraseP (fun x => x.rid == r.rid) = t
      rw [hq, List.eraseP_cons_of_pos (by simp)]
    show ((t.map PendingRequest.rid).foldl resumeHandle (resumeHandle s r.rid)).pendingRequests = []
    exact ih _ hqt (fun x hx => hd x (List.mem_cons_of_mem r hx))

lemma resolveAll_all_decided (s : ControllerState) (a : RouteAction) :
    ∀ r ∈ (resolveAll s a).pendingRequests, r.decision.isSome := by
  intro r hr
  obtain ⟨x, _, rfl⟩ := List.mem_map.mp hr
  exact resolveEvery_isSome a x

lemma findRequest_mem {s : ControllerState} {sel : Option RequestSelector}
    {r : PendingRequest} (h : RouteController.findRequest s sel = some r) :
    r ∈ s.pendingRequests := by
  unfold RouteController.findRequest at h
  cases hsel : sel.getD (RequestSelector.idx 0) with
  | idx n =>
    rw [hsel] at h
    exact List.get?_mem h
  | pred p =>
    rw [hsel] at h
    exact List.mem_of_find?_eq_some h

/-- C1: with `expectedRequests = K` configured, an `intercept` (`handle`) call
whose request passes the method and predicate filters fails with the capacity
error naming the configured limit and the current pending count exactly when
the pending-record count is already at least `K`; in that case nothing is
enqueued and no action is applied to the handle (queue, timers, detached
records and route log are all left untouched).  Below the limit the request is
enqueued, so with `K = 0` the very first filtered-in call fails and, once a
pending record has been removed, a pending count below `K` lets a new call in
again (the limit bounds concurrently pending records, not the cumulative
total). -/
theorem C1_expected_requests_limit (cfg : RouteControllerOptions) (s : ControllerState)
    (req : Request) (now : Nat) (K : Nat)
    (hK : cfg.expectedRequests = some K)
    (hm : methodFilterFails cfg req = false)
    (hf : matchFilterFails cfg req = false) :
    (K ≤ s.pendingRequests.length →
      RouteController.handle cfg s req now
        = (HandleOutcome.capacityError K s.pendingRequests.length,
           { s with nextId := s.nextId + 1 })) ∧
    (s.pendingRequests.length < K →
      (RouteController.handle cfg s req now).1 = HandleOutcome.enqueued s.nextId ∧
      (RouteController.handle cfg s req now).2.pendingRequests
        = s.pendingRequests
            ++ [{ rid := s.nextId, req := req, timestamp := now, decision := none }]) := by
  unfold RouteController.handle
  rw [hm, hf, hK]
  simp only [Bool.false_eq_true, if_false]
  constructor
  · intro h
    rw [if_pos h]
  · intro h
    rw [if_neg (Nat.not_le.mpr h)]
    exact ⟨rfl, rfl⟩

/-- Witness for C1: with `expectedRequests = 0` the very first filtered-in
call fails with the capacity error naming limit 0 and pending count 0, and the
state is unchanged except for the consumed route identity. -/
theorem C1_expected_requests_limit_witness :
    RouteController.handle { expectedRequests := some 0 } initState reqG 0
      = (HandleOutcome.capacityError 0 0, { initState with nextId := 1 }) :=
  (C1_expected_requests_limit { expectedRequests := some 0 } initState reqG 0 0
    rfl rfl rfl).1 (Nat.le_refl 0)

/-- C3: the method filter is evaluated first (exact, case-sensitive match) and
the predicate filter second; if the method filter fails the outcome is the
same for every predicate, and in either failure case the handle receives
exactly one `Continue` action with no overrides while the pending array, the
timers and the counter evidence of enqueuing are untouched (so the request
never becomes a pending record and never counts against the limit). -/
theorem C3_filter_auto_continue (cfg : RouteControllerOptions) (s : ControllerState)
    (req : Request) (now : Nat) :
    (methodFilterFails cfg req = true →
      ∀ f : Option (Request → Bool),
        RouteController.handle { cfg with matchFn := f } s req now
          = (HandleOutcome.filtered,
             { s with routeLog := s.routeLog ++ [(s.nextId, RouteAction.cont none)],
                      nextId := s.nextId + 1 })) ∧
    (methodFilterFails cfg req = false → matchFilterFails cfg req = true →
      RouteController.handle cfg s req now
        = (HandleOutcome.filtered,
           { s with routeLog := s.routeLog ++ [(s.nextId, RouteAction.cont none)],
                    nextId := s.nextId + 1 })) := by
  constructor
  · intro hm f
    have hm2 : methodFilterFails { cfg with matchFn := f } req = true := hm
    unfold RouteController.handle
    rw [hm2]
    simp only [if_true]
    rfl
  · intro hm hf
    unfold RouteController.handle
    rw [hm, hf]
    simp only [Bool.false_eq_true, if_false, if_true]
    rfl

/-- Witness for C3: a GET request against a `method: POST` filter is
auto-continued with no overrides and is never enqueued, whatever the
predicate option says. -/
theorem C3_filter_auto_continue_witness :
    RouteController.handle { method := some "POST", matchFn := some (fun _ => false) }
        initState reqG 0
      = (HandleOutcome.filtered,
         { initState with routeLog := [(0, RouteAction.cont none)], nextId := 1 }) :=
  (C3_filter_auto_continue { method := some "POST" } initState reqG 0).1
    (by decide) (some (fun _ => false))

/-- C10: a configured `timeout` of 0 is falsy in the source's truthiness test,
so no auto-resolve timer is ever scheduled: `handle` behaves exactly as if no
timeout were configured, and the timer map is unchanged. -/
theorem C10_zero_timeout_schedules_nothing (cfg : RouteControllerOptions)
    (s : ControllerState) (req : Request) (now : Nat) (h : cfg.timeout = some 0) :
    RouteController.handle cfg s req now
      = RouteController.handle { cfg with timeout := none } s req now ∧
    (RouteController.handle cfg s req now).2.timeoutIds = s.timeoutIds := by
  obtain ⟨t, m, f, k⟩ := cfg
  have h2 : t = some 0 := h
  subst h2
  constructor
  · rfl
  · unfold RouteController.handle
    split
    · rfl
    · split
      · rfl
      · split
        · split
          · rfl
          · rfl
        · rfl

/-- Witness for C10: with `timeout: 0` an enqueuing `handle` call schedules no
timer. -/
theorem C10_zero_timeout_schedules_nothing_witness :
    RouteController.handle { timeout := some 0 } initState reqG 0
      = RouteController.handle ({} : RouteControllerOptions) initState reqG 0 ∧
    (RouteController.handle { timeout := some 0 } initState reqG 0).2.timeoutIds = [] :=
  C10_zero_timeout_schedules_nothing { timeout := some 0 } initState reqG 0 rfl

/-- C2: across any schedule of the single-threaded scheduler, every route
handle receives at most one terminal action (the route log never names the
same handle twice), and a record's resolver is single-use: once a decision is
recorded, a later resolver invocation never replaces it, so only the first
supplied decision is ever applied. -/
theorem C2_exactly_once_per_record (cfg : RouteControllerOptions) (tr : List Event)
    (s : ControllerState) (rid : Nat) (a b : RouteAction) :
    (lids (run cfg tr)).Nodup ∧
    (getDecision s rid = some a → getDecision (resolveRecord s rid b) rid = some a) :=
  ⟨(inv_run cfg tr).nodupL, fun h => getDecision_sticks s rid b a h⟩

/-- Witness for C2: after `abort()` decided record 0, resolving the same
record again with `continue` leaves the original `abort` decision in place. -/
theorem C2_exactly_once_per_record_witness :
    (lids (run cfg0 [Event.intercept reqG 0, Event.ctrlAbort none none,
        Event.resume 0])).Nodup ∧
    getDecision sTwoAborted 0 = some (RouteAction.abort none) ∧
    getDecision (resolveRecord sTwoAborted 0 (RouteAction.cont none)) 0
      = some (RouteAction.abort none) :=
  ⟨(C2_exactly_once_per_record cfg0
      [Event.intercept reqG 0, Event.ctrlAbort none none, Event.resume 0]
      sTwoAborted 0 (RouteAction.abort none) (RouteAction.cont none)).1,
   by decide,
   (C2_exactly_once_per_record cfg0
      [Event.intercept reqG 0, Event.ctrlAbort none none, Event.resume 0]
      sTwoAborted 0 (RouteAction.abort none) (RouteAction.cont none)).2 (by decide)⟩

/-- C4: `abortAll()` / `continueAll()` return the pre-call `pendingCount`,
every previously unresolved snapshot record receives the corresponding
decision exactly once (records already carrying a decision keep it, by the
single-use resolver), and once the resolved continuations have drained the
pending count is 0. -/
theorem C4_bulk_operations (s : ControllerState) :
    (RouteController.abortAll s).1 = RouteController.pendingCount s ∧
    (RouteController.continueAll s).1 = RouteController.pendingCount s ∧
    RouteController.pendingCount (flushAll (RouteController.abortAll s).2) = 0 ∧
    RouteController.pendingCount (flushAll (RouteController.continueAll s).2) = 0 ∧
    (∀ r ∈ s.pendingRequests, r.decision = none →
      { r with decision := some (RouteAction.abort none) }
        ∈ (RouteController.abortAll s).2.pendingRequests) ∧
    (∀ r ∈ s.pendingRequests, r.decision = none →
      { r with decision := some (RouteAction.cont none) }
        ∈ (RouteController.continueAll s).2.pendingRequests) := by
  refine ⟨rfl, rfl, ?_, ?_, ?_, ?_⟩
  · show (flushAll (resolveAll s (RouteAction.abort none))).pendingRequests.length = 0
    unfold flushAll qids
    rw [flush_empties (resolveAll s (RouteAction.abort none)).pendingRequests _ rfl
      (resolveAll_all_decided s _)]
    rfl
  · show (flushAll (resolveAll s (RouteAction.cont none))).pendingRequests.length = 0
    unfold flushAll qids
    rw [flush_empties (resolveAll s (RouteAction.cont none)).pendingRequests _ rfl
      (resolveAll_all_decided s _)]
    rfl
  · intro r hr hd
    have hmem : resolveEvery (RouteAction.abort none) r
        ∈ (resolveAll s (RouteAction.abort none)).pendingRequests :=
      List.mem_map_of_mem _ hr
    unfold resolveEvery at hmem
    rw [if_pos hd] at hmem
    exact hmem
  · intro r hr hd
    have hmem : resolveEvery (RouteAction.cont none) r
        ∈ (resolveAll s (RouteAction.cont none)).pendingRequests :=
      List.mem_map_of_mem _ hr
    unfold resolveEvery at hmem
    rw [if_pos hd] at hmem
    exact hmem

/-- Witness for C4: on a queue of two unresolved records, `abortAll` returns
2, the drained queue is empty, and record 0 carries the `abort` decision. -/
theorem C4_bulk_operations_witness :
    (RouteController.abortAll sTwo).1 = RouteController.pendingCount sTwo ∧
    RouteController.pendingCount (flushAll (RouteController.abortAll sTwo).2) = 0 ∧
    rec0Aborted ∈ (RouteController.abortAll sTwo).2.pendingRequests :=
  ⟨(C4_bulk_operations sTwo).1,
   (C4_bulk_operations sTwo).2.2.1,
   (C4_bulk_operations sTwo).2.2.2.2.1 rec0 (by decide) (by decide)⟩

/-- C5: with a timeout configured, a timer firing on a still-unresolved record
auto-resolves it with `Continue` and no overrides and unschedules the timer;
a record already resolved by another path keeps its decision when the timer
fires (single-use resolver), the resolution path always removes the record's
scheduled timer, and an unscheduled timer id is gone from the (duplicate-free)
timer map — so a manual decision and a timeout never both apply. -/
theorem C5_timeout_auto_continue (s1 s2 : ControllerState) (rid1 rid2 : Nat)
    (r : PendingRequest) (a : RouteAction) :
    (rid1 ∈ s1.timeoutIds → getRecord s1 rid1 = some r → r.decision = none →
      getDecision (fireTimeout s1 rid1) rid1 = some (RouteAction.cont none) ∧
      (fireTimeout s1 rid1).timeoutIds = s1.timeoutIds.erase rid1) ∧
    (getDecision s2 rid2 = some a →
      getDecision (fireTimeout s2 rid2) rid2 = some a) ∧
    (getDecision s2 rid2 = some a →
      (resumeHandle s2 rid2).timeoutIds = s2.timeoutIds.erase rid2) ∧
    (s2.timeoutIds.Nodup → rid2 ∉ s2.timeoutIds.erase rid2) := by
  refine ⟨?_, ?_, ?_, ?_⟩
  · intro hmem hrec hdec
    constructor
    · unfold fireTimeout
      rw [if_pos hmem]
      exact getDecision_sets _ rid1 _ r hrec hdec
    · unfold fireTimeout
      rw [if_pos hmem]
      rfl
  · intro h
    unfold fireTimeout
    split
    · exact getDecision_sticks _ rid2 _ a h
    · exact h
  · intro h
    unfold getDecision getRecord at h
    cases hf : s2.pendingRequests.find? (fun x => x.rid == rid2) with
    | none =>
      rw [hf] at h
      exact absurd h (by simp)
    | some rr =>
      rw [hf] at h
      have hd : rr.decision = some a := h
      simp only [resumeHandle, hf, hd]
      rfl
  · intro hn
    exact List.Nodup.not_mem_erase hn

/-- Witness for C5: the timer fires on the unresolved record of `sTimer` and
continues it; on `sTimerDecided` (manually aborted first) the timer firing
keeps the `abort` decision, and resuming removes the timer. -/
theorem C5_timeout_auto_continue_witness :
    (getDecision (fireTimeout sTimer 0) 0 = some (RouteAction.cont none) ∧
     (fireTimeout sTimer 0).timeoutIds = sTimer.timeoutIds.erase 0) ∧
    getDecision (fireTimeout sTimerDecided 0) 0 = some (RouteAction.abort none) ∧
    (resumeHandle sTimerDecided 0).timeoutIds = sTimerDecided.timeoutIds.erase 0 ∧
    0 ∉ sTimerDecided.timeoutIds.erase 0 :=
  ⟨(C5_timeout_auto_continue sTimer sTimerDecided 0 0 rec0 (RouteAction.abort none)).1
      (by decide) (by decide) (by decide),
   (C5_timeout_auto_continue sTimer sTimerDecided 0 0 rec0 (RouteAction.abort none)).2.1
      (by decide),
   (C5_timeout_auto_continue sTimer sTimerDecided 0 0 rec0 (RouteAction.abort none)).2.2.1
      (by decide),
   (C5_timeout_auto_continue sTimer sTimerDecided 0 0 rec0 (RouteAction.abort none)).2.2.2
      (by decide)⟩

/-- C6: in every reachable state the pending array is in strict FIFO arrival
order (ids are assigned by arrival, so position 0 is the oldest unresolved
record); a control operation with no selector targets exactly position 0; and
resuming the decided head record removes precisely that record, promoting the
previously-second-oldest record to position 0. -/
theorem C6_fifo_queue (cfg : RouteControllerOptions) (tr : List Event) (s : ControllerState)
    (r : PendingRequest) (rest : List PendingRequest) (a : RouteAction) :
    (qids (run cfg tr)).Sorted (· < ·) ∧
    RouteController.findRequest s none = s.pendingRequests.get? 0 ∧
    (s.pendingRequests = r :: rest → r.decision = some a →
      (resumeHandle s r.rid).pendingRequests = rest) := by
  refine ⟨(inv_run cfg tr).sortedQ, rfl, ?_⟩
  intro hq hd
  have hfind : s.pendingRequests.find? (fun x => x.rid == r.rid) = some r := by
    rw [hq]
    exact List.find?_cons_of_pos _ (by simp)
  simp only [resumeHandle, hfind, hd]
  show s.pendingRequests.eraseP (fun x => x.rid == r.rid) = rest
  rw [hq, List.eraseP_cons_of_pos (by simp)]

/-- Witness for C6: resolving the head of the two-record queue leaves the
second record as the new head. -/
theorem C6_fifo_queue_witness :
    (resumeHandle sTwoAborted rec0Aborted.rid).pendingRequests = [rec1] :=
  (C6_fifo_queue cfg0 [] sTwoAborted rec0Aborted [rec1] (RouteAction.abort none)).2.2
    (by decide) (by decide)

/-- C7: each targeted control operation resolves `findRequest(selector)`;
its boolean result is exactly whether a record was found, a miss leaves the
state untouched (and never throws — the operations are total), and a hit
supplies the corresponding decision to that record's resolver.  An
out-of-range index selector and a predicate selector matching no pending
request (scanned oldest to newest) both yield a miss. -/
theorem C7_selector_ops (s : ControllerState) (sel : Option RequestSelector)
    (ec : Option String) (ov : Option String) (resp : String) (ov2 : Option String) :
    ((RouteController.abort s ec sel).1 = (RouteController.findRequest s sel).isSome) ∧
    ((RouteController.cont s ov sel).1 = (RouteController.findRequest s sel).isSome) ∧
    ((RouteController.fulfill s resp sel).1 = (RouteController.findRequest s sel).isSome) ∧
    ((RouteController.fallback s ov2 sel).1 = (RouteController.findRequest s sel).isSome) ∧
    (RouteController.findRequest s sel = none →
      (RouteController.abort s ec sel).2 = s ∧
      (RouteController.cont s ov sel).2 = s ∧
      (RouteController.fulfill s resp sel).2 = s ∧
      (RouteController.fallback s ov2 sel).2 = s) ∧
    (∀ r, RouteController.findRequest s sel = some r →
      (RouteController.abort s ec sel).2 = resolveRecord s r.rid (RouteAction.abort ec) ∧
      (RouteController.cont s ov sel).2 = resolveRecord s r.rid (RouteAction.cont ov) ∧
      (RouteController.fulfill s resp sel).2 = resolveRecord s r.rid (RouteAction.fulfill resp) ∧
      (RouteController.fallback s ov2 sel).2 = resolveRecord s r.rid (RouteAction.fallback ov2)) ∧
    (∀ n, sel = some (RequestSelector.idx n) → s.pendingRequests.length ≤ n →
      RouteController.findRequest s sel = none) ∧
    (∀ p : Request → Bool, sel = some (RequestSelector.pred p) →
      (∀ r ∈ s.pendingRequests, p r.req = false) →
      RouteController.findRequest s sel = none) := by
  refine ⟨?_, ?_, ?_, ?_, ?_, ?_, ?_, ?_⟩
  · unfold RouteController.abort
    cases RouteController.findRequest s sel <;> rfl
  · unfold RouteController.cont
    cases RouteController.findRequest s sel <;> rfl
  · unfold RouteController.fulfill
    cases RouteController.findRequest s sel <;> rfl
  · unfold RouteController.fallback
    cases RouteController.findRequest s sel <;> rfl
  · intro h
    unfold RouteController.abort RouteController.cont RouteController.fulfill
      RouteController.fallback
    rw [h]
    exact ⟨rfl, rfl, rfl, rfl⟩
  · intro r h
    unfold RouteController.abort RouteController.cont RouteController.fulfill
      RouteController.fallback
    rw [h]
    exact ⟨rfl, rfl, rfl, rfl⟩
  · intro n hsel hlen
    unfold RouteController.findRequest
    rw [hsel]
    show s.pendingRequests.get? n = none
    rw [List.get?_eq_getElem?]
    exact List.getElem?_eq_none hlen
  · intro p hsel hp
    unfold RouteController.findRequest
    rw [hsel]
    show s.pendingRequests.find? (fun r => p r.req) = none
    refine List.find?_eq_none.mpr ?_
    intro x hx
    rw [hp x hx]
    simp

/-- Witness for C7: on the two-record queue an out-of-range index selector
misses without side effect, the default selector hits record 0, and a
never-true predicate selector misses. -/
theorem C7_selector_ops_witness :
    ((RouteController.abort sTwo none (some (RequestSelector.idx 5))).2 = sTwo ∧
     (RouteController.cont sTwo none (some (RequestSelector.idx 5))).2 = sTwo ∧
     (RouteController.fulfill sTwo "" (some (RequestSelector.idx 5))).2 = sTwo ∧
     (RouteController.fallback sTwo none (some (RequestSelector.idx 5))).2 = sTwo) ∧
    (RouteController.abort sTwo none none).2
      = resolveRecord sTwo rec0.rid (RouteAction.abort none) ∧
    RouteController.findRequest sTwo (some (RequestSelector.idx 5)) = none ∧
    RouteController.findRequest sTwo (some (RequestSelector.pred (fun _ => false))) = none :=
  ⟨(C7_selector_ops sTwo (some (RequestSelector.idx 5)) none none "" none).2.2.2.2.1
      (by decide),
   ((C7_selector_ops sTwo none none none "" none).2.2.2.2.2.1 rec0 (by decide)).1,
   (C7_selector_ops sTwo (some (RequestSelector.idx 5)) none none "" none).2.2.2.2.2.2.1
      5 rfl (by decide),
   (C7_selector_ops sTwo (some (RequestSelector.pred (fun _ => false))) none none "" none).2.2.2.2.2.2.2
      (fun _ => false) rfl (fun r _ => rfl)⟩

/-- C8: `dispose()` clears the pending array (so `pendingCount` becomes 0) and
every scheduled timer, applies no decision to any handle (the route log is
untouched), is idempotent, and no previously scheduled timeout can ever fire
afterwards: a timer id handed out before the dispose is never in the timer map
again under any continuation of the schedule. -/
theorem C8_dispose (cfg : RouteControllerOptions) (s : ControllerState) (rid : Nat)
    (tr : List Event) :
    (RouteController.dispose s).pendingRequests = [] ∧
    (RouteController.dispose s).timeoutIds = [] ∧
    (RouteController.dispose s).routeLog = s.routeLog ∧
    RouteController.dispose (RouteController.dispose s) = RouteController.dispose s ∧
    (rid < s.nextId → rid ∉ (runFrom cfg (RouteController.dispose s) tr).timeoutIds) := by
  refine ⟨rfl, rfl, rfl, ?_, ?_⟩
  · simp [RouteController.dispose]
  · intro hb
    exact (fresh_runFrom cfg tr (RouteController.dispose s) rid hb (List.not_mem_nil rid)).2

/-- Witness for C8: after disposing the one-timer state, record 0's timer
never fires again, even after the old timer event is delivered and a new
request schedules a fresh timer. -/
theorem C8_dispose_witness :
    0 ∉ (runFrom cfgT (RouteController.dispose sTimer)
        [Event.timerFires 0, Event.intercept reqP 5]).timeoutIds :=
  (C8_dispose cfgT sTimer 0 [Event.timerFires 0, Event.intercept reqP 5]).2.2.2.2
    (by decide)

/-- C9: a targeted control operation that finds a record returns `true` but
does not remove it: the array ids and the pending count are unchanged when the
operation returns, the same selector still selects the same record (now
carrying the decision), so a second operation issued before the suspended
continuation runs also returns `true` — and its decision is discarded by the
single-use resolver. -/
theorem C9_removal_deferred (s : ControllerState) (sel : Option RequestSelector)
    (ec : Option String) (ov : Option String) (r : PendingRequest)
    (hn : (qids s).Nodup)
    (hf : RouteController.findRequest s sel = some r)
    (hd : r.decision = none) :
    (RouteController.abort s ec sel).1 = true ∧
    RouteController.pendingCount (RouteController.abort s ec sel).2
      = RouteController.pendingCount s ∧
    qids (RouteController.abort s ec sel).2 = qids s ∧
    RouteController.findRequest (RouteController.abort s ec sel).2 sel
      = some (resolveOne r.rid (RouteAction.abort ec) r) ∧
    (resolveOne r.rid (RouteAction.abort ec) r).rid = r.rid ∧
    (RouteController.cont (RouteController.abort s ec sel).2 ov sel).1 = true ∧
    getDecision (RouteController.cont (RouteController.abort s ec sel).2 ov sel).2 r.rid
      = some (RouteAction.abort ec) := by
  have habort : RouteController.abort s ec sel
      = (true, resolveRecord s r.rid (RouteAction.abort ec)) := by
    unfold RouteController.abort
    rw [hf]
  have hfind2 : RouteController.findRequest (resolveRecord s r.rid (RouteAction.abort ec)) sel
      = some (resolveOne r.rid (RouteAction.abort ec) r) := by
    rw [findRequest_resolveRecord, hf]
    rfl
  have hrid2 := resolveOne_rid r.rid (RouteAction.abort ec) r
  have hcont : RouteController.cont (resolveRecord s r.rid (RouteAction.abort ec)) ov sel
      = (true, resolveRecord (resolveRecord s r.rid (RouteAction.abort ec))
          (resolveOne r.rid (RouteAction.abort ec) r).rid (RouteAction.cont ov)) := by
    unfold RouteController.cont
    rw [hfind2]
  have hrec : getRecord s r.rid = some r := find?_rid_of_mem hn (findRequest_mem hf)
  have hdec1 : getDecision (resolveRecord s r.rid (RouteAction.abort ec)) r.rid
      = some (RouteAction.abort ec) := getDecision_sets s r.rid _ r hrec hd
  rw [habort]
  refine ⟨rfl, pendingCount_resolveRecord s r.rid _, qids_resolveRecord s r.rid _,
    hfind2, hrid2, ?_, ?_⟩
  · rw [hcont]
  · rw [hcont]
    show getDecision (resolveRecord (resolveRecord s r.rid (RouteAction.abort ec))
        (resolveOne r.rid (RouteAction.abort ec) r).rid (RouteAction.cont ov)) r.rid
      = some (RouteAction.abort ec)
    rw [hrid2]
    exact getDecision_sticks _ r.rid (RouteAction.cont ov) (RouteAction.abort ec) hdec1

/-- Witness for C9: `abort()` then `continue()` before the continuation runs —
both return `true`, the count stays 2, and the record keeps the `abort`
decision. -/
theorem C9_removal_deferred_witness :
    (RouteController.abort sTwo none none).1 = true ∧
    RouteController.pendingCount (RouteController.abort sTwo none none).2
      = RouteController.pendingCount sTwo ∧
    (RouteController.cont (RouteController.abort sTwo none none).2 none none).1 = true ∧
    getDecision (RouteController.cont (RouteController.abort sTwo none none).2 none none).2
        rec0.rid
      = some (RouteAction.abort none) := by
  have h := C9_removal_deferred sTwo none none none rec0 (by decide) (by decide) rfl
  exact ⟨h.1, h.2.1, h.2.2.2.2.2.1, h.2.2.2.2.2.2⟩
